import Mathlib

/-!
Shallow embedding of the steemdata-mongo scraper (src/methods.py, src/scraper.py).

Python values flowing through operation payloads are modelled by `PyVal`;
Python dicts by association lists (`PyDict`) whose `dictGet` returns the first
binding; Python `d[k]` subscripting (which raises `KeyError` on a missing key)
by `Except`-valued lookups.  Exceptions are modelled by `Except String`;
`DuplicateKeyError`-suppressed inserts by insert-if-absent on the store.
External collaborators (the steem RPC client and the mongo connection) are
modelled as explicit inputs: fetched snapshots, history streams and the current
head block number are parameters, and store contents are passed and returned
as values.  Effectful procedures additionally return an event trace recording,
in program order, the store writes and work dispatches they perform.
-/

/-- A Python value as it appears in operation payloads: strings, ints,
lists, string-keyed dicts, and `None`. -/
inductive PyVal where
  | str : String → PyVal
  | int : Int → PyVal
  | list : List PyVal → PyVal
  | dict : List (String × PyVal) → PyVal
  | pynone : PyVal

/-- Python dicts are modelled as insertion-ordered association lists. -/
abbrev PyDict := List (String × PyVal)

mutual

/-- Python structural equality (`==`) on `PyVal`; values of different shapes
compare unequal (in particular a string never equals a list, the comparison
at the heart of the dead branch in `parse_operation`). -/
def pyEq : PyVal → PyVal → Bool
  | PyVal.str a, PyVal.str b => a == b
  | PyVal.int a, PyVal.int b => a == b
  | PyVal.list a, PyVal.list b => pyEqList a b
  | PyVal.dict a, PyVal.dict b => pyEqDict a b
  | PyVal.pynone, PyVal.pynone => true
  | _, _ => false

/-- Elementwise `pyEq` on lists. -/
def pyEqList : List PyVal → List PyVal → Bool
  | [], [] => true
  | a :: as, b :: bs => pyEq a b && pyEqList as bs
  | _, _ => false

/-- Entrywise `pyEq` on dicts. -/
def pyEqDict : List (String × PyVal) → List (String × PyVal) → Bool
  | [], [] => true
  | (k1, v1) :: as, (k2, v2) :: bs => k1 == k2 && pyEq v1 v2 && pyEqDict as bs
  | _, _ => false

end

mutual

theorem pyEq_iff : ∀ (a b : PyVal), pyEq a b = true ↔ a = b
  | PyVal.str a, PyVal.str b => by simp [pyEq]
  | PyVal.int a, PyVal.int b => by simp [pyEq]
  | PyVal.list a, PyVal.list b => by
      simp only [pyEq]
      rw [pyEqList_iff a b]
      simp
  | PyVal.dict a, PyVal.dict b => by
      simp only [pyEq]
      rw [pyEqDict_iff a b]
      simp
  | PyVal.pynone, PyVal.pynone => by simp [pyEq]
  | PyVal.str a, PyVal.int b => by simp [pyEq]
  | PyVal.str a, PyVal.list b => by simp [pyEq]
  | PyVal.str a, PyVal.dict b => by simp [pyEq]
  | PyVal.str a, PyVal.pynone => by simp [pyEq]
  | PyVal.int a, PyVal.str b => by simp [pyEq]
  | PyVal.int a, PyVal.list b => by simp [pyEq]
  | PyVal.int a, PyVal.dict b => by simp [pyEq]
  | PyVal.int a, PyVal.pynone => by simp [pyEq]
  | PyVal.list a, PyVal.str b => by simp [pyEq]
  | PyVal.list a, PyVal.int b => by simp [pyEq]
  | PyVal.list a, PyVal.dict b => by simp [pyEq]
  | PyVal.list a, PyVal.pynone => by simp [pyEq]
  | PyVal.dict a, PyVal.str b => by simp [pyEq]
  | PyVal.dict a, PyVal.int b => by simp [pyEq]
  | PyVal.dict a, PyVal.list b => by simp [pyEq]
  | PyVal.dict a, PyVal.pynone => by simp [pyEq]
  | PyVal.pynone, PyVal.str b => by simp [pyEq]
  | PyVal.pynone, PyVal.int b => by simp [pyEq]
  | PyVal.pynone, PyVal.list b => by simp [pyEq]
  | PyVal.pynone, PyVal.dict b => by simp [pyEq]

theorem pyEqList_iff : ∀ (as bs : List PyVal), pyEqList as bs = true ↔ as = bs
  | [], [] => by simp [pyEqList]
  | a :: as, b :: bs => by
      simp only [pyEqList, Bool.and_eq_true]
      rw [pyEq_iff a b, pyEqList_iff as bs]
      simp
  | [], _ :: _ => by simp [pyEqList]
  | _ :: _, [] => by simp [pyEqList]

theorem pyEqDict_iff : ∀ (as bs : List (String × PyVal)), pyEqDict as bs = true ↔ as = bs
  | [], [] => by simp [pyEqDict]
  | (k1, v1) :: as, (k2, v2) :: bs => by
      simp only [pyEqDict, Bool.and_eq_true]
      rw [pyEq_iff v1 v2, pyEqDict_iff as bs]
      simp [and_assoc]
  | [], _ :: _ => by simp [pyEqDict]
  | _ :: _, [] => by simp [pyEqDict]

end

instance : DecidableEq PyVal := fun a b => decidable_of_iff _ (pyEq_iff a b)

instance : BEq PyVal := ⟨pyEq⟩

instance : LawfulBEq PyVal where
  eq_of_beq h := (pyEq_iff _ _).mp h
  rfl := (pyEq_iff _ _).mpr rfl

/-- Shorthand for a Python string literal. -/
def pstr (s : String) : PyVal := PyVal.str s

/-- Python `d.get(k)`: the value of the first binding of `k`, if any. -/
def dictGet (d : PyDict) (k : String) : Option PyVal :=
  (d.find? (fun kv => kv.fst == k)).map (fun kv => kv.snd)

/-- Python `d[k] = v`: replace the binding in place, or append a new one. -/
def dictSet (d : PyDict) (k : String) (v : PyVal) : PyDict :=
  if (d.map Prod.fst).contains k then
    d.map (fun kv => if kv.fst == k then (k, v) else kv)
  else d ++ [(k, v)]

/-- Python `d[k]` subscripting: `KeyError` when the key is missing. -/
def pyGetItem (d : PyDict) (k : String) : Except String PyVal :=
  match dictGet d k with
  | some v => Except.ok v
  | none => Except.error "KeyError"

/-- Python subscripting a list value by position (`v[i]`). -/
def pyGetIndex (v : PyVal) (i : Nat) : Except String PyVal :=
  match v with
  | PyVal.list xs =>
    match xs.get? i with
    | some x => Except.ok x
    | none => Except.error "IndexError"
  | _ => Except.error "TypeError"

/-- Python subscripting a dict value by key (`v[k]`). -/
def pyGetItemV (v : PyVal) (k : String) : Except String PyVal :=
  match v with
  | PyVal.dict d => pyGetItem d k
  | _ => Except.error "TypeError"

/-- funcy `first(seq)`: the first element of an iterable, `None` when the
iterable is empty, `TypeError` on a non-iterable (e.g. `None`). -/
def pyFirst : PyVal → Except String PyVal
  | PyVal.list [] => Except.ok PyVal.pynone
  | PyVal.list (x :: _) => Except.ok x
  | PyVal.str s =>
    match s.data with
    | [] => Except.ok PyVal.pynone
    | c :: _ => Except.ok (PyVal.str (String.mk [c]))
  | PyVal.dict [] => Except.ok PyVal.pynone
  | PyVal.dict (kv :: _) => Except.ok (PyVal.str kv.fst)
  | _ => Except.error "TypeError"

/-- Python truthiness for the values above (`bool(v)`). -/
def pyTruthy : PyVal → Bool
  | PyVal.str s => !s.isEmpty
  | PyVal.int n => decide (n ≠ 0)
  | PyVal.list xs => !xs.isEmpty
  | PyVal.dict d => !d.isEmpty
  | PyVal.pynone => false

/-- Python `set.add`: sets are modelled as duplicate-free lists in first
insertion order. -/
def pySetAdd (s : List PyVal) (v : PyVal) : List PyVal :=
  if s.contains v then s else s ++ [v]

/-- Python `set.update(vs)`. -/
def pySetUpdate (s : List PyVal) (vs : List PyVal) : List PyVal :=
  vs.foldl pySetAdd s

/-- Python `list(set(xs))`: deduplicate, keeping first occurrences. -/
def pySetList (xs : List PyVal) : List PyVal :=
  xs.foldl pySetAdd []

/-- steem.utils `keep_in_dict(obj, allowed_keys)`:
`{k: v for k, v in obj.items() if k in allowed_keys}`. -/
def keep_in_dict (obj : PyDict) (allowed_keys : List String) : PyDict :=
  obj.filter (fun kv => allowed_keys.contains kv.fst)

/-- funcy `keep(xs)` with no mapping function: drop falsy values. -/
def pyKeep (xs : List PyVal) : List PyVal :=
  xs.filter pyTruthy

/-!  ### methods.py: parse_operation  -/

/-- The classifier obligations: `accounts` mirrors `update_accounts_full`,
`accounts_light` mirrors `update_accounts_light` (each a Python set,
returned as a list). -/
structure OpResult where
  accounts : List PyVal
  accounts_light : List PyVal
deriving DecidableEq

/-- methods.py `account_from_auths` (closure inside `parse_operation`):
`first(op.get('required_auths', op.get('required_posting_auths')))`. -/
def account_from_auths (op : PyDict) : Except String PyVal :=
  pyFirst ((dictGet op "required_auths").getD
    ((dictGet op "required_posting_auths").getD PyVal.pynone))

/-- The branch chain of methods.py `parse_operation` after `op_type = op['type']`.
Each branch adds the fields the source names to the light (and, for account
creation, full) sets; the `convert`-group branch keeps the source's
`op_type == [...]` comparison of a value against a list literal verbatim. -/
def parse_operation_body (op : PyDict) (op_type : PyVal) : Except String OpResult := do
  if [pstr "account_create",
      pstr "account_create_with_delegation"].contains op_type then
    let creator ← pyGetItem op "creator"
    let new_account_name ← pyGetItem op "new_account_name"
    pure ⟨pySetAdd [] new_account_name, pySetAdd [] creator⟩
  else if [pstr "account_update",
           pstr "withdraw_vesting",
           pstr "claim_reward_balance",
           pstr "return_vesting_delegation",
           pstr "account_witness_vote"].contains op_type then
    let account ← pyGetItem op "account"
    pure ⟨[], pySetAdd [] account⟩
  else if pyEq op_type (pstr "account_witness_proxy") then
    let account ← pyGetItem op "account"
    let proxy ← pyGetItem op "proxy"
    pure ⟨[], pySetAdd (pySetAdd [] account) proxy⟩
  else if [pstr "author_reward", pstr "comment"].contains op_type then
    let author ← pyGetItem op "author"
    pure ⟨[], pySetAdd [] author⟩
  else if pyEq op_type (pstr "vote") then
    let voter ← pyGetItem op "voter"
    pure ⟨[], pySetAdd [] voter⟩
  else if pyEq op_type (pstr "cancel_transfer_from_savings") then
    let sender ← pyGetItem op "from"
    pure ⟨[], pySetAdd [] sender⟩
  else if pyEq op_type (pstr "change_recovery_account") then
    let acc ← pyGetItem op "account_to_recover"
    pure ⟨[], pySetAdd [] acc⟩
  else if pyEq op_type (pstr "comment_benefactor_reward") then
    let benefactor ← pyGetItem op "benefactor"
    pure ⟨[], pySetAdd [] benefactor⟩
  else if pyEq op_type (PyVal.list [pstr "convert",
                                    pstr "fill_convert_request",
                                    pstr "interest",
                                    pstr "limit_order_cancel",
                                    pstr "limit_order_create",
                                    pstr "shutdown_witness",
                                    pstr "witness_update"]) then
    let owner ← pyGetItem op "owner"
    pure ⟨[], pySetAdd [] owner⟩
  else if pyEq op_type (pstr "curation_reward") then
    let curator ← pyGetItem op "curator"
    pure ⟨[], pySetAdd [] curator⟩
  else if [pstr "custom", pstr "custom_json"].contains op_type then
    let acc ← account_from_auths op
    pure ⟨[], pySetAdd [] acc⟩
  else if pyEq op_type (pstr "delegate_vesting_shares") then
    let delegator ← pyGetItem op "delegator"
    let delegatee ← pyGetItem op "delegatee"
    pure ⟨[], pySetAdd (pySetAdd [] delegator) delegatee⟩
  else if pyEq op_type (pstr "delete_comment") then
    let author ← pyGetItem op "author"
    pure ⟨[], pySetAdd [] author⟩
  else if [pstr "escrow_approve",
           pstr "escrow_dispute",
           pstr "escrow_release",
           pstr "escrow_transfer"].contains op_type then
    let accs := (keep_in_dict op ["agent", "from", "to", "who", "receiver"]).map Prod.snd
    pure ⟨[], pySetUpdate [] accs⟩
  else if pyEq op_type (pstr "feed_publish") then
    let publisher ← pyGetItem op "publisher"
    pure ⟨[], pySetAdd [] publisher⟩
  else if [pstr "fill_order"].contains op_type then
    let open_owner ← pyGetItem op "open_owner"
    let current_owner ← pyGetItem op "current_owner"
    pure ⟨[], pySetAdd (pySetAdd [] open_owner) current_owner⟩
  else if [pstr "fill_vesting_withdraw"].contains op_type then
    let to_account ← pyGetItem op "to_account"
    let from_account ← pyGetItem op "from_account"
    pure ⟨[], pySetAdd (pySetAdd [] to_account) from_account⟩
  else if pyEq op_type (pstr "pow2") then
    let work ← pyGetItem op "work"
    let item ← pyGetIndex work 1
    let input ← pyGetItemV item "input"
    let acc ← pyGetItemV input "worker_account"
    pure ⟨[], pySetAdd [] acc⟩
  else if [pstr "recover_account",
           pstr "request_account_recovery"].contains op_type then
    let acc ← pyGetItem op "account_to_recover"
    pure ⟨[], pySetAdd [] acc⟩
  else if pyEq op_type (pstr "set_withdraw_vesting_route") then
    let from_account ← pyGetItem op "from_account"
    let to_account ← pyGetItem op "to_account"
    pure ⟨[], pySetAdd (pySetAdd [] from_account) to_account⟩
  else if [pstr "transfer",
           pstr "transfer_from_savings",
           pstr "transfer_to_savings",
           pstr "transfer_to_vesting"].contains op_type then
    let accs := (keep_in_dict op ["agent", "from", "to", "who", "receiver"]).map Prod.snd
    pure ⟨[], pySetUpdate [] accs⟩
  else
    pure ⟨[], []⟩

/-- methods.py `parse_operation`: reads `op['type']` and runs the branch
chain, returning `{'accounts': list(full), 'accounts_light': list(light)}`. -/
def parse_operation (op : PyDict) : Except String OpResult := do
  let op_type ← pyGetItem op "type"
  parse_operation_body op op_type

/-!  ### methods.py: account history sync  -/

/-- methods.py `account_operations_index`: the highest stored
`AccountOperations.index` for the account (a descending sort with limit 1),
0 when nothing is stored.  The store is modelled by its list of per-account
indices. -/
def account_operations_index (stored : List Int) : Int :=
  match stored.max? with
  | some i => i
  | none => 0

/-- `AccountOperations.insert_one` under `suppress(DuplicateKeyError)`:
the unique index on `(account, index)` turns a duplicate insert into a no-op. -/
def ops_insert_suppress (stored : List Int) (e : Int) : List Int :=
  if stored.contains e then stored else stored ++ [e]

/-- Outcome of a quick history sync: the final store contents and the
(ordered) indices whose insert was attempted. -/
structure QuickSyncResult where
  stored : List Int
  attempted : List Int
deriving DecidableEq

/-- The `for event in take(batch_size, history)` loop of
`update_account_ops_quick`: return as soon as `event['index'] < start_index`,
otherwise insert with duplicate suppression and continue. -/
def quick_sync_loop (start_index : Int) :
    List Int → List Int → List Int → QuickSyncResult
  | [], stored, attempted => ⟨stored, attempted⟩
  | e :: rest, stored, attempted =>
    if e < start_index then ⟨stored, attempted⟩
    else quick_sync_loop start_index rest (ops_insert_suppress stored e) (attempted ++ [e])

/-- methods.py `update_account_ops_quick`: look up the high-water index, and
(for tracked accounts only) walk at most `batch_size` events of the
reverse-ordered history stream.  `history` is the index sequence produced by
`Account(username).history_reverse(...)`, latest first. -/
def update_account_ops_quick (tracked : List String) (username : String)
    (stored : List Int) (history : List Int) (batch_size : Nat) : QuickSyncResult :=
  let start_index := account_operations_index stored
  if tracked.contains username then
    quick_sync_loop start_index (history.take batch_size) stored []
  else ⟨stored, []⟩

/-!  ### methods.py: update_account  -/

/-- Outcome of one `update_account` call: the documents passed to
`mongo.Accounts.update` in order, and the error of an uncaught second
`WriteError`, if any. -/
structure AccountUpdateRun where
  writes : List PyVal
  err : Option String
deriving DecidableEq

/-- methods.py `update_account`.  `exported` is the typified account snapshot
fetched from the chain; `strip_keys` stands for `strip_dot_from_keys` (defined
in the repo's utils module, not under src/; the claims do not depend on it);
`write_fails` is the store's behaviour: whether an upsert of a given document
raises `WriteError`.  Untracked accounts are a no-op. -/
def update_account_doc (username : String) (exported : PyDict)
    (strip_keys : PyDict → PyDict) (updatedAt : PyVal) (load_extras : Bool) : PyDict :=
  let account := dictSet (dictSet exported "account" (PyVal.str username))
    "updatedAt" updatedAt
  let account :=
    match dictGet account "json_metadata" with
    | some (PyVal.dict d) => dictSet account "json_metadata" (PyVal.dict (strip_keys d))
    | _ => account
  if !load_extras then [("$set", PyVal.dict account)] else account

/-- The try/except around the two `mongo.Accounts.update` calls: on a first
`WriteError` the same dict — with its (top-level) `json_metadata` binding
replaced by the empty dict — is written once more, with no protection of its
own. -/
def update_account (tracked : List String) (username : String) (exported : PyDict)
    (strip_keys : PyDict → PyDict) (updatedAt : PyVal) (load_extras : Bool)
    (write_fails : PyVal → Bool) : AccountUpdateRun :=
  if tracked.contains username then
    let account := update_account_doc username exported strip_keys updatedAt load_extras
    if write_fails (PyVal.dict account) then
      let account2 := dictSet account "json_metadata" (PyVal.dict [])
      ⟨[PyVal.dict account, PyVal.dict account2],
        if write_fails (PyVal.dict account2) then some "WriteError" else none⟩
    else ⟨[PyVal.dict account], none⟩
  else ⟨[], none⟩

/-!  ### scraper.py: insert_blocks  -/

/-- A raw block as handed to `insert_blocks`: `block_num` is `none` when the
fetch response omitted it. -/
structure Block where
  block_num : Option Int
  block_id : String
  previous : String
deriving DecidableEq

/-- scraper.py `block_id_exists`: a covered query for the given `block_id`. -/
def block_id_exists (store : List Block) (block_id : String) : Bool :=
  store.any (fun b => b.block_id == block_id)

/-- The value of a hexadecimal digit character, if it is one. -/
def hex_digit_value (c : Char) : Option Nat :=
  if '0' ≤ c ∧ c ≤ '9' then some (c.toNat - '0'.toNat)
  else if 'a' ≤ c ∧ c ≤ 'f' then some (c.toNat - 'a'.toNat + 10)
  else if 'A' ≤ c ∧ c ≤ 'F' then some (c.toNat - 'A'.toNat + 10)
  else none

/-- Python `int(s, base=16)` on plain hex strings: `ValueError` on an empty
string or a non-hex character. -/
def int_base16 (s : String) : Except String Int :=
  if s.data.isEmpty then Except.error "ValueError"
  else s.data.foldlM (fun acc c =>
    match hex_digit_value c with
    | some v => Except.ok (acc * 16 + (v : Int))
    | none => Except.error "ValueError") 0

/-- The `block['block_num']` in force after the falsy-check at the top of the
`insert_blocks` loop: a missing (or zero) value is recomputed from the first
8 characters of `block_id`. -/
def effective_block_num (b : Block) : Except String Int :=
  match b.block_num with
  | some n => if n = 0 then int_base16 (b.block_id.take 8) else Except.ok n
  | none => int_base16 (b.block_id.take 8)

/-- scraper.py `insert_blocks`: for each block, normalize `block_num`, assert
chain continuity (`block_num == 1` or `previous` already stored) — a failed
assertion aborts with the store unchanged since that point — then insert with
duplicate suppression (uniqueness on `block_id`). -/
def insert_blocks (store : List Block) :
    List Block → Except (String × List Block) (List Block)
  | [] => Except.ok store
  | b :: rest =>
    match effective_block_num b with
    | Except.error e => Except.error (e, store)
    | Except.ok bn =>
      let b2 : Block := ⟨some bn, b.block_id, b.previous⟩
      if bn > 1 ∧ block_id_exists store b2.previous = false then
        Except.error ("Missing Previous Block (" ++ b2.previous ++ ")", store)
      else
        insert_blocks
          (if block_id_exists store b2.block_id then store else store ++ [b2]) rest

/-!  ### scraper.py: scrape_operations  -/

/-- An element of the operation stream, keyed by the only field
`scrape_operations`' control flow reads. -/
structure StreamOp where
  block_num : Int
deriving DecidableEq

/-- The observable effects of `scrape_operations`, in program order: an
attempted `Operations.insert_one` (duplicate-suppressed), or an
`indexer.set_checkpoint('operations', v)` write. -/
inductive IngestEvent where
  | insertOp : StreamOp → IngestEvent
  | setCheckpoint : Int → IngestEvent
deriving DecidableEq

/-- scraper.py `scrape_operations`, as the event trace of its loop: each
operation is inserted (duplicate-suppressed), then, if its `block_num` differs
from the running `last_block`, the checkpoint is set to `block_num - 1` and
`last_block` is updated.  The first argument is `last_block`, initially the
`operations` checkpoint. -/
def scrape_operations : Int → List StreamOp → List IngestEvent
  | _, [] => []
  | last_block, o :: rest =>
    IngestEvent.insertOp o ::
      (if o.block_num ≠ last_block then
        IngestEvent.setCheckpoint (o.block_num - 1) :: scrape_operations o.block_num rest
      else
        scrape_operations last_block rest)

/-- The value of the loop variable `last_block` after `scrape_operations`
has consumed the given operations (it is set to each operation's `block_num`
in turn). -/
def run_last_block : Int → List StreamOp → Int
  | last_block, [] => last_block
  | _, o :: rest => run_last_block o.block_num rest

/-!  ### scraper.py: post_processing  -/

/-- scraper.py `is_recent`: `block_num > head_block_num - 20 * 60 * 24 * days`
(the head block number is fetched from the RPC client; here a parameter). -/
def is_recent (block_num : Int) (head_block_num : Int) (days : Int) : Bool :=
  decide (block_num > head_block_num - 20 * 60 * 24 * days)

/-- A stored `Operations` document as `post_processing` sees it: its
`block_num` and the payload handed to `parse_operation`. -/
structure StoredOp where
  block_num : Int
  payload : PyDict
deriving DecidableEq

/-- `custom_merge` (closure inside `post_processing`):
`list(set(keep(flatten(args))))`. -/
def custom_merge (args : List (List PyVal)) : List PyVal :=
  pySetList (pyKeep args.flatten)

/-- The result of funcy `merge_with(custom_merge, *batches)` on the two-key
dicts produced by `parse_operation`: both keys are absent when there are no
batches at all. -/
structure BatchItems where
  accounts : Option (List PyVal)
  accounts_light : Option (List PyVal)

/-- funcy `merge_with(custom_merge, *batches)` over `parse_operation`
results. -/
def merge_with_custom (batches : List OpResult) : BatchItems :=
  if batches.isEmpty then ⟨none, none⟩
  else ⟨some (custom_merge (batches.map OpResult.accounts)),
        some (custom_merge (batches.map OpResult.accounts_light))⟩

/-- Python `batch_items['accounts_light']` on the merge result: `KeyError`
when the key is absent. -/
def batch_items_get : Option (List PyVal) → Except String (List PyVal)
  | some l => Except.ok l
  | none => Except.error "KeyError"

/-- The consumption of the lazy `batches = map(parse_operation, results)`:
the list of classifier results, or the first classification error raised. -/
def parse_batches : List StoredOp → Except String (List OpResult)
  | [] => Except.ok []
  | o :: rest =>
    match parse_operation o.payload, parse_batches rest with
    | Except.ok r, Except.ok rs => Except.ok (r :: rs)
    | Except.error e, _ => Except.error e
    | _, Except.error e => Except.error e

/-- Python `max(xs)`: `ValueError` on an empty sequence. -/
def py_max : List Int → Except String Int
  | [] => Except.error "ValueError"
  | x :: xs => Except.ok (xs.foldl max x)

/-- The observable effects of `post_processing`, in program order: an
`update_account` refresh dispatched through `thread_multi`, an
`update_account_ops_quick` backfill dispatched through `thread_multi`, or an
`indexer.set_checkpoint('post_processing', v)` write. -/
inductive PPEvent where
  | dispatchUpdateAccount : PyVal → PPEvent
  | dispatchUpdateOpsQuick : PyVal → PPEvent
  | setCheckpoint : Int → PPEvent
deriving DecidableEq

/-- scraper.py `post_processing`, as its event trace plus the uncaught
exception it ends with, if any.  `ops` is the `Operations` store,
`start_block` the `post_processing` checkpoint, `head_block_num` the current
chain head.  The batch is the stored operations with
`start_block < block_num <= start_block + batch_size`; an empty batch within
one day of the head returns immediately; classification errors and the
`KeyError`/`ValueError` of the empty-merge accesses surface as the returned
error, leaving the checkpoint unwritten.  `pp_selected` is the batch
selection query `start_block < block_num <= start_block + batch_size`. -/
def pp_selected (ops : List StoredOp) (start_block : Int) (batch_size : Int) :
    List StoredOp :=
  ops.filter (fun o =>
    decide (start_block < o.block_num) && decide (o.block_num ≤ start_block + batch_size))

def pp_dispatch_events (head_block_num : Int) (start_block : Int)
    (batches : List OpResult) : Except String (List PPEvent) :=
  if is_recent start_block head_block_num 10 then
    match batch_items_get (merge_with_custom batches).accounts_light,
          batch_items_get (merge_with_custom batches).accounts with
    | Except.ok light, Except.ok full =>
      Except.ok ((pySetList (light ++ full)).map PPEvent.dispatchUpdateAccount
        ++ (pySetList (light ++ full)).map PPEvent.dispatchUpdateOpsQuick)
    | Except.error e, _ => Except.error e
    | _, Except.error e => Except.error e
  else Except.ok []

def post_processing (ops : List StoredOp) (start_block : Int) (head_block_num : Int)
    (batch_size : Int) : List PPEvent × Option String :=
  if (pp_selected ops start_block batch_size).isEmpty
      && is_recent start_block head_block_num 1 then ([], none)
  else
    match parse_batches (pp_selected ops start_block batch_size) with
    | Except.error e => ([], some e)
    | Except.ok batches =>
      match pp_dispatch_events head_block_num start_block batches with
      | Except.error e => ([], some e)
      | Except.ok devents =>
        match py_max ((pp_selected ops start_block batch_size).map StoredOp.block_num) with
        | Except.error e => (devents, some e)
        | Except.ok index => (devents ++ [PPEvent.setCheckpoint index], none)

/-!  ### Helper lemmas  -/

theorem mem_pySetAdd (s : List PyVal) (v x : PyVal) :
    x ∈ pySetAdd s v ↔ x ∈ s ∨ x = v := by
  unfold pySetAdd
  simp only [List.contains, List.elem_eq_mem]
  by_cases h : v ∈ s
  · simp only [h, decide_True, if_true]
    constructor
    · exact fun hx => Or.inl hx
    · rintro (hx | rfl)
      · exact hx
      · exact h
  · simp [h]

theorem mem_pySetUpdate (vs : List PyVal) (s : List PyVal) (x : PyVal) :
    x ∈ pySetUpdate s vs ↔ x ∈ s ∨ x ∈ vs := by
  induction vs generalizing s with
  | nil => simp [pySetUpdate]
  | cons v vs ih =>
    unfold pySetUpdate at ih ⊢
    simp only [List.foldl_cons]
    rw [ih (pySetAdd s v), mem_pySetAdd]
    simp only [List.mem_cons]
    tauto

theorem mem_pySetList (xs : List PyVal) (x : PyVal) :
    x ∈ pySetList xs ↔ x ∈ xs := by
  have h := mem_pySetUpdate xs [] x
  unfold pySetUpdate at h
  unfold pySetList
  rw [h]
  simp

theorem nodup_pySetAdd (s : List PyVal) (v : PyVal) (h : s.Nodup) :
    (pySetAdd s v).Nodup := by
  unfold pySetAdd
  by_cases hv : s.contains v = true
  · rw [if_pos hv]; exact h
  · rw [if_neg hv]
    refine List.Nodup.append h (List.nodup_singleton v) ?_
    intro x hx hx'
    simp only [List.mem_singleton] at hx'
    subst hx'
    exact hv (by simpa [List.contains, List.elem_eq_mem] using hx)

theorem nodup_pySetUpdate (vs : List PyVal) (s : List PyVal) (h : s.Nodup) :
    (pySetUpdate s vs).Nodup := by
  induction vs generalizing s with
  | nil => simpa [pySetUpdate] using h
  | cons v vs ih =>
    unfold pySetUpdate at ih ⊢
    simp only [List.foldl_cons]
    exact ih (pySetAdd s v) (nodup_pySetAdd s v h)

theorem nodup_pySetList (xs : List PyVal) : (pySetList xs).Nodup :=
  nodup_pySetUpdate xs [] List.nodup_nil

theorem mem_custom_merge (args : List (List PyVal)) (x : PyVal) :
    x ∈ custom_merge args ↔ pyTruthy x = true ∧ ∃ l ∈ args, x ∈ l := by
  unfold custom_merge pyKeep
  rw [mem_pySetList]
  simp only [List.mem_filter, List.mem_flatten]
  tauto

theorem mem_of_dictGet (d : PyDict) (k : String) (v : PyVal)
    (h : dictGet d k = some v) : (k, v) ∈ d := by
  unfold dictGet at h
  match hf : d.find? (fun kv => kv.fst == k) with
  | none => rw [hf] at h; simp at h
  | some (k', v') =>
    rw [hf] at h
    simp only [Option.map_some'] at h
    have hv : v' = v := by simpa using h
    have hmem := List.mem_of_find?_eq_some hf
    have hp := List.find?_some hf
    simp only [beq_iff_eq] at hp
    subst hv
    subst hp
    exact hmem

theorem dictGet_of_mem_nodup (d : PyDict) (k : String) (v : PyVal)
    (hnd : (d.map Prod.fst).Nodup) (hmem : (k, v) ∈ d) :
    dictGet d k = some v := by
  induction d with
  | nil => simp at hmem
  | cons kv d ih =>
    obtain ⟨k', v'⟩ := kv
    simp only [List.map_cons, List.nodup_cons] at hnd
    rcases List.mem_cons.mp hmem with heq | htail
    · cases heq
      simp [dictGet]
    · have hk : k' ≠ k := by
        intro heq
        exact hnd.1 (heq ▸ List.mem_map_of_mem Prod.fst htail)
      have ihres := ih hnd.2 htail
      unfold dictGet at ihres ⊢
      rw [List.find?_cons_of_neg]
      · exact ihres
      · simp [hk]

theorem parse_batches_length (l : List StoredOp) (bs : List OpResult)
    (h : parse_batches l = Except.ok bs) : bs.length = l.length := by
  induction l generalizing bs with
  | nil => simp only [parse_batches, Except.ok.injEq] at h; simp [← h]
  | cons o l ih =>
    unfold parse_batches at h
    match hp : parse_operation o.payload, hm : parse_batches l with
    | Except.ok r, Except.ok rs =>
      rw [hp, hm] at h
      simp only [Except.ok.injEq] at h
      subst h
      simp [ih rs hm]
    | Except.error e, Except.ok rs => rw [hp, hm] at h; simp at h
    | Except.error e, Except.error e' => rw [hp, hm] at h; simp at h
    | Except.ok r, Except.error e => rw [hp, hm] at h; simp at h

theorem foldl_max_le (xs : List Int) (x : Int) :
    x ≤ xs.foldl max x ∧ ∀ y ∈ xs, y ≤ xs.foldl max x := by
  induction xs generalizing x with
  | nil => simp
  | cons a xs ih =>
    simp only [List.foldl_cons, List.mem_cons]
    obtain ⟨h1, h2⟩ := ih (max x a)
    refine ⟨le_trans (le_max_left x a) h1, ?_⟩
    rintro y (rfl | hy)
    · exact le_trans (le_max_right x y) h1
    · exact h2 y hy

theorem foldl_max_mem (xs : List Int) (x : Int) :
    xs.foldl max x = x ∨ xs.foldl max x ∈ xs := by
  induction xs generalizing x with
  | nil => simp
  | cons a xs ih =>
    simp only [List.foldl_cons, List.mem_cons]
    rcases ih (max x a) with h | h
    · rcases max_cases x a with ⟨hm, _⟩ | ⟨hm, _⟩
      · exact Or.inl (h.trans hm)
      · exact Or.inr (Or.inl (h.trans hm))
    · exact Or.inr (Or.inr h)

theorem py_max_spec (l : List Int) (hne : l ≠ []) :
    ∃ mx, py_max l = Except.ok mx ∧ mx ∈ l ∧ ∀ y ∈ l, y ≤ mx := by
  match l, hne with
  | x :: xs, _ =>
    refine ⟨xs.foldl max x, rfl, ?_, ?_⟩
    · rcases foldl_max_mem xs x with h | h
      · simp [h]
      · simp [h]
    · intro y hy
      rcases List.mem_cons.mp hy with rfl | hy
      · exact (foldl_max_le xs y).1
      · exact (foldl_max_le xs x).2 y hy

/-!  ### Claims  -/

/-- Claim C2: for a block with `block_num = n > 1` whose `previous` hash is
not among the stored block ids, `insert_blocks` raises the fatal
chain-integrity assertion with the store unchanged (the block is not stored);
for a block with `block_num = 1`, or one whose `previous` is already stored,
the insert proceeds, and a duplicate `block_id` is silently discarded while a
fresh one is appended. -/
theorem insert_blocks_chain_integrity (store : List Block) (b : Block)
    (rest : List Block) (n : Int) (hb : b.block_num = some n) :
    (1 < n → block_id_exists store b.previous = false →
      insert_blocks store (b :: rest) =
        Except.error ("Missing Previous Block (" ++ b.previous ++ ")", store)) ∧
    (1 ≤ n → (n = 1 ∨ block_id_exists store b.previous = true) →
      insert_blocks store [b] =
        Except.ok (if block_id_exists store b.block_id then store else store ++ [b])) := by
  obtain ⟨bn, bid, prev⟩ := b
  simp only at hb
  subst hb
  have heff : effective_block_num ⟨some n, bid, prev⟩ = if n = 0 then int_base16 (bid.take 8) else Except.ok n := rfl
  constructor
  · intro hn hprev
    have hne : n ≠ 0 := by omega
    rw [if_neg hne] at heff
    unfold insert_blocks
    rw [heff]
    simp only
    rw [if_pos ⟨hn, hprev⟩]
  · intro hn hcase
    have hne : n ≠ 0 := by omega
    rw [if_neg hne] at heff
    unfold insert_blocks
    rw [heff]
    simp only
    rw [if_neg]
    · rfl
    · rintro ⟨hgt, hfalse⟩
      rcases hcase with rfl | htrue
      · omega
      · rw [htrue] at hfalse
        cases hfalse

/-- Claim C2 witness: a block `5` with an unknown `previous` is rejected with
the store unchanged; a block `5` whose `previous` is stored is appended. -/
theorem insert_blocks_chain_integrity_witness :
    insert_blocks [⟨some 4, "b4", "b3"⟩] [⟨some 5, "b5", "nope"⟩]
      = Except.error ("Missing Previous Block (nope)", [⟨some 4, "b4", "b3"⟩]) ∧
    insert_blocks [⟨some 4, "b4", "b3"⟩] [⟨some 5, "b5", "b4"⟩]
      = Except.ok [⟨some 4, "b4", "b3"⟩, ⟨some 5, "b5", "b4"⟩] := by
  constructor
  · exact (insert_blocks_chain_integrity [⟨some 4, "b4", "b3"⟩] ⟨some 5, "b5", "nope"⟩
      [] 5 rfl).1 (by norm_num) rfl
  · have h := (insert_blocks_chain_integrity [⟨some 4, "b4", "b3"⟩] ⟨some 5, "b5", "b4"⟩
      [] 5 rfl).2 (by norm_num) (Or.inr rfl)
    rw [h]
    rfl

/-- Claim C4: for an operation whose `type` is any of the seven strings of the
`convert` group, the guard of that branch — the source's equality test of the
type string against a list literal — is false (a string never equals a list),
so the branch is unreachable and `parse_operation` returns empty full and
light obligation sets. -/
theorem parse_operation_convert_group_dead (op : PyDict) (t : String)
    (ht : t ∈ ["convert", "fill_convert_request", "interest", "limit_order_cancel",
      "limit_order_create", "shutdown_witness", "witness_update"])
    (hop : dictGet op "type" = some (pstr t)) :
    pyEq (pstr t) (PyVal.list [pstr "convert",
                               pstr "fill_convert_request",
                               pstr "interest",
                               pstr "limit_order_cancel",
                               pstr "limit_order_create",
                               pstr "shutdown_witness",
                               pstr "witness_update"]) = false ∧
    parse_operation op = Except.ok ⟨[], []⟩ := by
  constructor
  · rfl
  · unfold parse_operation pyGetItem
    rw [hop]
    show parse_operation_body op (pstr t) = Except.ok ⟨[], []⟩
    fin_cases ht <;> rfl

/-- Claim C4 witness: a `convert` operation (with an `owner` field present)
yields empty obligation sets. -/
theorem parse_operation_convert_group_dead_witness :
    parse_operation [("type", pstr "convert"), ("owner", pstr "alice")]
      = Except.ok ⟨[], []⟩ :=
  (parse_operation_convert_group_dead
    [("type", pstr "convert"), ("owner", pstr "alice")] "convert"
    (by decide) rfl).2

theorem dictGet_map_replace (d : PyDict) (k : String) (v : PyVal)
    (h : k ∈ d.map Prod.fst) :
    dictGet (d.map (fun kv => if kv.fst == k then (k, v) else kv)) k = some v := by
  induction d with
  | nil => simp at h
  | cons kv d ih =>
    obtain ⟨k', v'⟩ := kv
    by_cases hk : k' = k
    · subst hk
      unfold dictGet
      simp
    · simp only [List.map_cons, List.map_cons, List.mem_cons] at h
      rcases h with h | h
      · exact absurd h.symm hk
      · unfold dictGet at ih ⊢
        simp only [List.map_cons]
        rw [List.find?_cons_of_neg]
        · exact ih h
        · simp [hk]

theorem dictGet_append_absent (d : PyDict) (k : String) (v : PyVal)
    (h : ¬ k ∈ d.map Prod.fst) :
    dictGet (d ++ [(k, v)]) k = some v := by
  induction d with
  | nil => simp [dictGet]
  | cons kv d ih =>
    obtain ⟨k', v'⟩ := kv
    simp only [List.map_cons, List.mem_cons] at h
    push_neg at h
    unfold dictGet at ih ⊢
    simp only [List.cons_append]
    rw [List.find?_cons_of_neg]
    · exact ih h.2
    · simp
      exact fun heq => h.1 heq.symm

theorem dictGet_dictSet_self (d : PyDict) (k : String) (v : PyVal) :
    dictGet (dictSet d k v) k = some v := by
  unfold dictSet
  by_cases h : k ∈ d.map Prod.fst
  · rw [if_pos (by simpa [List.contains, List.elem_eq_mem] using h)]
    exact dictGet_map_replace d k v h
  · rw [if_neg (by simpa [List.contains, List.elem_eq_mem] using h)]
    exact dictGet_append_absent d k v h

/-- Claim C8: for an operation of type `custom` or `custom_json` carrying a
non-empty required-authority list (in `required_auths`, or failing that in
`required_posting_auths`), the light set is exactly the singleton of the
first listed account — co-signers ignored — and the full set is empty. -/
theorem parse_operation_custom_first_auth (op : PyDict) (t : String) (a : PyVal)
    (auths : List PyVal)
    (ht : t = "custom" ∨ t = "custom_json")
    (hop : dictGet op "type" = some (pstr t))
    (hauth : dictGet op "required_auths" = some (PyVal.list (a :: auths)) ∨
      (dictGet op "required_auths" = none ∧
       dictGet op "required_posting_auths" = some (PyVal.list (a :: auths)))) :
    parse_operation op = Except.ok ⟨[], [a]⟩ := by
  have hacc : account_from_auths op = Except.ok a := by
    unfold account_from_auths
    rcases hauth with h | ⟨h1, h2⟩
    · rw [h]
      rfl
    · rw [h1, h2]
      rfl
  unfold parse_operation pyGetItem
  rw [hop]
  show parse_operation_body op (pstr t) = Except.ok ⟨[], [a]⟩
  rcases ht with rfl | rfl
  · have hred : parse_operation_body op (pstr "custom")
        = Except.bind (account_from_auths op)
            (fun acc => Except.ok ⟨[], pySetAdd [] acc⟩) := rfl
    rw [hred, hacc]
    rfl
  · have hred : parse_operation_body op (pstr "custom_json")
        = Except.bind (account_from_auths op)
            (fun acc => Except.ok ⟨[], pySetAdd [] acc⟩) := rfl
    rw [hred, hacc]
    rfl

/-- Claim C8 witness: a `custom_json` operation with two required posting
auths yields the light singleton of the first one. -/
theorem parse_operation_custom_first_auth_witness :
    parse_operation [("type", pstr "custom_json"),
      ("required_posting_auths", PyVal.list [pstr "alice", pstr "bob"])]
      = Except.ok ⟨[], [pstr "alice"]⟩ :=
  parse_operation_custom_first_auth
    [("type", pstr "custom_json"),
      ("required_posting_auths", PyVal.list [pstr "alice", pstr "bob"])]
    "custom_json" (pstr "alice") [pstr "bob"] (Or.inr rfl) rfl (Or.inr ⟨rfl, rfl⟩)

/-- Claim C9: for a tracked account, if the first upsert fails with a write
error the function retries exactly once, writing the same document with its
`json_metadata` binding replaced by the empty dict, and performs no further
retries; if the first upsert succeeds there is no second write. -/
theorem update_account_single_retry (tracked : List String) (username : String)
    (exported : PyDict) (strip_keys : PyDict → PyDict) (updatedAt : PyVal)
    (load_extras : Bool) (write_fails : PyVal → Bool)
    (htracked : tracked.contains username = true) :
    ∃ d : PyDict,
      (write_fails (PyVal.dict d) = false →
        update_account tracked username exported strip_keys updatedAt load_extras
          write_fails = ⟨[PyVal.dict d], none⟩) ∧
      (write_fails (PyVal.dict d) = true →
        (update_account tracked username exported strip_keys updatedAt load_extras
          write_fails).writes
          = [PyVal.dict d, PyVal.dict (dictSet d "json_metadata" (PyVal.dict []))] ∧
        dictGet (dictSet d "json_metadata" (PyVal.dict [])) "json_metadata"
          = some (PyVal.dict [])) := by
  refine ⟨update_account_doc username exported strip_keys updatedAt load_extras, ?_, ?_⟩
  · intro hf
    unfold update_account
    rw [if_pos htracked, if_neg (by simp [hf])]
  · intro hf
    unfold update_account
    rw [if_pos htracked, if_pos hf]
    exact ⟨rfl, dictGet_dictSet_self _ _ _⟩

/-- Claim C9 witness: with a store that rejects every write, a tracked
account's update performs exactly the initial write and one metadata-blanked
retry. -/
theorem update_account_single_retry_witness :
    (["alice"].contains "alice" = true) ∧
    ∃ d : PyDict,
      ((fun _ : PyVal => true) (PyVal.dict d) = false →
        update_account ["alice"] "alice" [("name", pstr "alice")] id PyVal.pynone true
          (fun _ => true) = ⟨[PyVal.dict d], none⟩) ∧
      ((fun _ : PyVal => true) (PyVal.dict d) = true →
        (update_account ["alice"] "alice" [("name", pstr "alice")] id PyVal.pynone true
          (fun _ => true)).writes
          = [PyVal.dict d, PyVal.dict (dictSet d "json_metadata" (PyVal.dict []))] ∧
        dictGet (dictSet d "json_metadata" (PyVal.dict [])) "json_metadata"
          = some (PyVal.dict [])) :=
  ⟨by decide,
   update_account_single_retry ["alice"] "alice" [("name", pstr "alice")] id
     PyVal.pynone true (fun _ => true) (by decide)⟩

theorem pp_selected_eq_nil (ops : List StoredOp) (start_block batch_size : Int)
    (hempty : ∀ o ∈ ops,
      ¬(start_block < o.block_num ∧ o.block_num ≤ start_block + batch_size)) :
    pp_selected ops start_block batch_size = [] := by
  unfold pp_selected
  rw [List.filter_eq_nil_iff]
  intro o ho
  simpa using hempty o ho

/-- Claim C5: a `post_processing` run whose selected batch
(`start_block < block_num <= start_block + batch_size`) is empty, with
`start_block` inside the 1-day recency window, returns with no effects at
all: no checkpoint write and no dispatched refresh work. -/
theorem post_processing_empty_recent_no_effect (ops : List StoredOp)
    (start_block head_block_num batch_size : Int)
    (hempty : ∀ o ∈ ops,
      ¬(start_block < o.block_num ∧ o.block_num ≤ start_block + batch_size))
    (hrecent : is_recent start_block head_block_num 1 = true) :
    post_processing ops start_block head_block_num batch_size = ([], none) := by
  unfold post_processing
  rw [pp_selected_eq_nil ops start_block batch_size hempty, hrecent]
  rfl

/-- Claim C5 witness: no stored operations, checkpoint 95 against head block
100: the run is a no-op. -/
theorem post_processing_empty_recent_no_effect_witness :
    (is_recent 95 100 1 = true) ∧
    post_processing [] 95 100 100 = ([], none) :=
  ⟨by decide,
   post_processing_empty_recent_no_effect [] 95 100 100 (by simp) (by decide)⟩

/-- Claim C10: a `post_processing` run whose selected batch is empty with
`start_block` outside the 1-day recency window raises an uncaught exception
(the `KeyError` of reading the absent keys of the empty merge when inside the
10-day window, else the `ValueError` of `max` on an empty list) with an empty
event trace: in particular the `post_processing` checkpoint is never written
on an empty batch, recent or not. -/
theorem post_processing_empty_stale_raises (ops : List StoredOp)
    (start_block head_block_num batch_size : Int)
    (hempty : ∀ o ∈ ops,
      ¬(start_block < o.block_num ∧ o.block_num ≤ start_block + batch_size))
    (hstale : is_recent start_block head_block_num 1 = false) :
    ∃ e, post_processing ops start_block head_block_num batch_size = ([], some e) := by
  unfold post_processing
  rw [pp_selected_eq_nil ops start_block batch_size hempty, hstale]
  by_cases h10 : is_recent start_block head_block_num 10 = true
  · refine ⟨"KeyError", ?_⟩
    have hd : pp_dispatch_events head_block_num start_block [] = Except.error "KeyError" := by
      unfold pp_dispatch_events
      rw [h10]
      rfl
    show (match pp_dispatch_events head_block_num start_block [] with
      | Except.error e => (([] : List PPEvent), some e)
      | Except.ok devents =>
        match py_max (([] : List StoredOp).map StoredOp.block_num) with
        | Except.error e => (devents, some e)
        | Except.ok index => (devents ++ [PPEvent.setCheckpoint index], none))
      = (([] : List PPEvent), some "KeyError")
    rw [hd]
  · refine ⟨"ValueError", ?_⟩
    have h10f : is_recent start_block head_block_num 10 = false := by
      simpa using h10
    have hd : pp_dispatch_events head_block_num start_block [] = Except.ok [] := by
      unfold pp_dispatch_events
      rw [h10f]
      rfl
    show (match pp_dispatch_events head_block_num start_block [] with
      | Except.error e => (([] : List PPEvent), some e)
      | Except.ok devents =>
        match py_max (([] : List StoredOp).map StoredOp.block_num) with
        | Except.error e => (devents, some e)
        | Except.ok index => (devents ++ [PPEvent.setCheckpoint index], none))
      = (([] : List PPEvent), some "ValueError")
    rw [hd]
    rfl

/-- Claim C10 witness: empty store, checkpoint 95, head block 300000 (outside
both windows): the run raises with no checkpoint write. -/
theorem post_processing_empty_stale_raises_witness :
    (is_recent 95 300000 1 = false) ∧
    ∃ e, post_processing [] 95 300000 100 = ([], some e) :=
  ⟨by decide,
   post_processing_empty_stale_raises [] 95 300000 100 (by simp) (by decide)⟩

/-- Claim C1 counterexample: with stored high-water index 50 and the reverse
history stream [60, 59, ..., 45], the loop does not stop upon reaching the
event with index 50 — an index that is not greater than the stored
high-water mark 50 — but attempts its insert (a suppressed duplicate) and
only stops on reaching 49; the attempted inserts are [60, ..., 50], not
[60, ..., 51], so "traversal stops at 50" fails. -/
theorem quick_sync_attempts_high_water_mark :
    (update_account_ops_quick ["alice"] "alice" [50]
      [60, 59, 58, 57, 56, 55, 54, 53, 52, 51, 50, 49, 48, 47, 46, 45] 200).attempted
      = [60, 59, 58, 57, 56, 55, 54, 53, 52, 51, 50] ∧
    (50 : Int) ∈ (update_account_ops_quick ["alice"] "alice" [50]
      [60, 59, 58, 57, 56, 55, 54, 53, 52, 51, 50, 49, 48, 47, 46, 45] 200).attempted ∧
    ¬ (50 : Int) > account_operations_index [50] := by
  refine ⟨by decide, by decide, by decide⟩

theorem mem_ops_insert_suppress (stored : List Int) (e x : Int) :
    x ∈ ops_insert_suppress stored e ↔ x ∈ stored ∨ x = e := by
  unfold ops_insert_suppress
  by_cases h : stored.contains e = true
  · rw [if_pos h]
    have he : e ∈ stored := by simpa [List.contains, List.elem_eq_mem] using h
    constructor
    · exact fun hx => Or.inl hx
    · rintro (hx | rfl)
      · exact hx
      · exact he
  · rw [if_neg h]
    simp

theorem quick_sync_loop_spec (start : Int) (events : List Int) :
    ∀ (stored attempted : List Int),
    (quick_sync_loop start events stored attempted).attempted
      = attempted ++ events.takeWhile (fun e => decide (start ≤ e)) ∧
    ∀ x : Int, x ∈ (quick_sync_loop start events stored attempted).stored ↔
      x ∈ stored ∨ x ∈ events.takeWhile (fun e => decide (start ≤ e)) := by
  induction events with
  | nil => intro stored attempted; simp [quick_sync_loop]
  | cons e rest ih =>
    intro stored attempted
    unfold quick_sync_loop
    by_cases hlt : e < start
    · rw [if_pos hlt]
      have hpred : (decide (start ≤ e)) = false := by simp; omega
      rw [List.takeWhile_cons, hpred]
      simp
    · rw [if_neg hlt]
      have hpred : (decide (start ≤ e)) = true := by simp; omega
      rw [List.takeWhile_cons, hpred]
      obtain ⟨h1, h2⟩ := ih (ops_insert_suppress stored e) (attempted ++ [e])
      constructor
      · rw [h1, List.append_assoc]
        rfl
      · intro x
        rw [h2 x, mem_ops_insert_suppress]
        simp only [if_true, List.mem_cons]
        tauto

/-- Claim C1 (amended): for a tracked account, quick mode walks the
reverse-ordered history for at most `batch_size` events, attempting each
insert with duplicate suppression, and stops immediately upon reaching an
event whose index is STRICTLY LESS than the stored high-water mark `h`
(the event with index equal to `h` is re-attempted and suppressed as a
duplicate, not a stopping point): the attempted indices are exactly the
longest initial run of the first `batch_size` history events with index `>= h`,
and the stored set afterwards is the old store plus exactly those attempted
indices — so with `h = 50` and incoming `[60, ..., 45]`, the newly inserted
indices are exactly `{60, ..., 51}` and traversal stops at 49, after
re-attempting 50. -/
theorem update_account_ops_quick_spec (tracked : List String) (username : String)
    (stored : List Int) (history : List Int) (batch_size : Nat)
    (htr : tracked.contains username = true) :
    (update_account_ops_quick tracked username stored history batch_size).attempted
      = (history.take batch_size).takeWhile
          (fun e => decide (account_operations_index stored ≤ e)) ∧
    ∀ x : Int,
      x ∈ (update_account_ops_quick tracked username stored history batch_size).stored
      ↔ x ∈ stored ∨ x ∈ (history.take batch_size).takeWhile
          (fun e => decide (account_operations_index stored ≤ e)) := by
  unfold update_account_ops_quick
  rw [if_pos htr]
  obtain ⟨h1, h2⟩ :=
    quick_sync_loop_spec (account_operations_index stored) (history.take batch_size) stored []
  exact ⟨by simpa using h1, fun x => h2 x⟩

/-- Claim C1 witness: at the concrete input of the claim (high-water mark 50,
reverse stream [60, ..., 45]) the attempted initial run evaluates to
[60, ..., 50]; 51 is newly stored while 49 is not. -/
theorem update_account_ops_quick_spec_witness :
    (update_account_ops_quick ["alice"] "alice" [50]
      [60, 59, 58, 57, 56, 55, 54, 53, 52, 51, 50, 49, 48, 47, 46, 45] 200).attempted
      = [60, 59, 58, 57, 56, 55, 54, 53, 52, 51, 50] ∧
    (51 : Int) ∈ (update_account_ops_quick ["alice"] "alice" [50]
      [60, 59, 58, 57, 56, 55, 54, 53, 52, 51, 50, 49, 48, 47, 46, 45] 200).stored ∧
    ¬ (49 : Int) ∈ (update_account_ops_quick ["alice"] "alice" [50]
      [60, 59, 58, 57, 56, 55, 54, 53, 52, 51, 50, 49, 48, 47, 46, 45] 200).stored := by
  have h := update_account_ops_quick_spec ["alice"] "alice" [50]
    [60, 59, 58, 57, 56, 55, 54, 53, 52, 51, 50, 49, 48, 47, 46, 45] 200 (by decide)
  refine ⟨?_, ?_, ?_⟩
  · rw [h.1]
    decide
  · exact (h.2 51).mpr (Or.inr (by decide))
  · intro hc
    rcases (h.2 49).mp hc with h' | h'
    · revert h'
      decide
    · revert h'
      decide

theorem scrape_ck_after_insert :
    ∀ (hist : List StreamOp) (cp : Int) (n : Nat) (v : Int),
    (scrape_operations cp hist).get? n = some (IngestEvent.setCheckpoint v) →
    ∃ o : StreamOp, 0 < n ∧
      (scrape_operations cp hist).get? (n - 1) = some (IngestEvent.insertOp o) ∧
      v = o.block_num - 1 := by
  intro hist
  induction hist with
  | nil =>
    intro cp n v h
    simp [scrape_operations] at h
  | cons o rest ih =>
    intro cp n v h
    unfold scrape_operations at h ⊢
    by_cases hb : o.block_num ≠ cp
    · rw [if_pos hb] at h ⊢
      match n with
      | 0 => simp at h
      | 1 =>
        rw [List.get?_cons_succ, List.get?_cons_zero] at h
        injection h with h
        injection h with h
        exact ⟨o, Nat.one_pos, rfl, h.symm⟩
      | (m + 2) =>
        rw [List.get?_cons_succ, List.get?_cons_succ] at h
        obtain ⟨o', hm, hget, hv⟩ := ih o.block_num m v h
        obtain ⟨m', rfl⟩ : ∃ m', m = m' + 1 := ⟨m - 1, by omega⟩
        refine ⟨o', by omega, ?_, hv⟩
        show (IngestEvent.insertOp o :: IngestEvent.setCheckpoint (o.block_num - 1) ::
          scrape_operations o.block_num rest).get? (m' + 2) = some (IngestEvent.insertOp o')
        rw [List.get?_cons_succ, List.get?_cons_succ]
        simpa using hget
    · rw [if_neg hb] at h ⊢
      match n with
      | 0 => simp at h
      | (m + 1) =>
        rw [List.get?_cons_succ] at h
        obtain ⟨o', hm, hget, hv⟩ := ih cp m v h
        obtain ⟨m', rfl⟩ : ∃ m', m = m' + 1 := ⟨m - 1, by omega⟩
        refine ⟨o', by omega, ?_, hv⟩
        show (IngestEvent.insertOp o ::
          scrape_operations cp rest).get? (m' + 1) = some (IngestEvent.insertOp o')
        rw [List.get?_cons_succ]
        simpa using hget

theorem scrape_ck_coverage :
    ∀ (pre : List StreamOp) (cp : Int) (o : StreamOp) (post : List StreamOp),
    o.block_num ≠ run_last_block cp pre →
    IngestEvent.setCheckpoint (o.block_num - 1) ∈ scrape_operations cp (pre ++ o :: post) := by
  intro pre
  induction pre with
  | nil =>
    intro cp o post h
    simp only [run_last_block] at h
    simp only [List.nil_append]
    unfold scrape_operations
    rw [if_pos h]
    exact List.mem_cons_of_mem _ (List.mem_cons_self _ _)
  | cons p pre ih =>
    intro cp o post h
    have h' : o.block_num ≠ run_last_block p.block_num pre := by
      simpa [run_last_block] using h
    have IH := ih p.block_num o post h'
    simp only [List.cons_append]
    unfold scrape_operations
    by_cases hb : p.block_num ≠ cp
    · rw [if_pos hb]
      exact List.mem_cons_of_mem _ (List.mem_cons_of_mem _ IH)
    · rw [if_neg hb]
      push_neg at hb
      rw [hb] at IH
      exact List.mem_cons_of_mem _ IH

/-- Claim C3: in the `scrape_operations` event trace, (1) every
`operations`-checkpoint write stores `b - 1` for the `block_num` `b` of the
operation whose insert was attempted immediately before it — so the
checkpoint is only set after the triggering operation's insert, always
trails the newly entered block by one, and a restart from it re-ingests at
least that block (at-least-once, never exactly-once); and (2) whenever the
stream crosses into a block whose `block_num` differs from the running
`last_block`, the checkpoint write of `block_num - 1` does occur. -/
theorem scrape_operations_checkpoint_discipline :
    (∀ (cp : Int) (hist : List StreamOp) (n : Nat) (v : Int),
      (scrape_operations cp hist).get? n = some (IngestEvent.setCheckpoint v) →
      ∃ o : StreamOp, 0 < n ∧
        (scrape_operations cp hist).get? (n - 1) = some (IngestEvent.insertOp o) ∧
        v = o.block_num - 1) ∧
    (∀ (cp : Int) (pre : List StreamOp) (o : StreamOp) (post : List StreamOp),
      o.block_num ≠ run_last_block cp pre →
      IngestEvent.setCheckpoint (o.block_num - 1) ∈ scrape_operations cp (pre ++ o :: post)) :=
  ⟨fun cp hist n v h => scrape_ck_after_insert hist cp n v h,
   fun cp pre o post h => scrape_ck_coverage pre cp o post h⟩

/-- Claim C3 witness: starting at checkpoint 5 with a single operation in
block 7, the checkpoint event at position 1 is preceded by that operation's
insert and stores 6; crossing from 5 to 7 writes checkpoint 6. -/
theorem scrape_operations_checkpoint_discipline_witness :
    (∃ o : StreamOp, 0 < 1 ∧
      (scrape_operations 5 [⟨7⟩]).get? (1 - 1) = some (IngestEvent.insertOp o) ∧
      (6 : Int) = o.block_num - 1) ∧
    IngestEvent.setCheckpoint ((7 : Int) - 1) ∈ scrape_operations 5 ([] ++ ⟨7⟩ :: []) :=
  ⟨scrape_operations_checkpoint_discipline.1 5 [⟨7⟩] 1 6 (by decide),
   scrape_operations_checkpoint_discipline.2 5 [] ⟨7⟩ [] (by decide)⟩

theorem mem_keep_values (op : PyDict) (keys : List String) (x : PyVal)
    (hnodup : (op.map Prod.fst).Nodup) :
    x ∈ (keep_in_dict op keys).map Prod.snd ↔
      ∃ k ∈ keys, dictGet op k = some x := by
  unfold keep_in_dict
  simp only [List.mem_map, List.mem_filter]
  constructor
  · rintro ⟨⟨k, v⟩, ⟨hmem, hcont⟩, rfl⟩
    refine ⟨k, ?_, dictGet_of_mem_nodup op k v hnodup hmem⟩
    simpa [List.contains, List.elem_eq_mem] using hcont
  · rintro ⟨k, hk, hget⟩
    exact ⟨(k, x), ⟨mem_of_dictGet op k x hget,
      by simpa [List.contains, List.elem_eq_mem] using hk⟩, rfl⟩

/-- Claim C7: for an operation of type `transfer` (likewise
`transfer_from_savings`, `transfer_to_savings`, `transfer_to_vesting`) with
`from = A` and `to = B` (and no duplicate payload keys), the classifier's
light set contains `A` and `B` and is exactly the set of values of whichever
of `agent`, `from`, `to`, `who`, `receiver` are present in the payload, while
the full set is empty. -/
theorem parse_operation_transfer_light (op : PyDict) (t : String) (A B : PyVal)
    (ht : t ∈ ["transfer", "transfer_from_savings", "transfer_to_savings",
      "transfer_to_vesting"])
    (hnodup : (op.map Prod.fst).Nodup)
    (htype : dictGet op "type" = some (pstr t))
    (hfrom : dictGet op "from" = some A) (hto : dictGet op "to" = some B) :
    ∃ res : OpResult, parse_operation op = Except.ok res ∧
      res.accounts = [] ∧ A ∈ res.accounts_light ∧ B ∈ res.accounts_light ∧
      ∀ x : PyVal, x ∈ res.accounts_light ↔
        ∃ k ∈ ["agent", "from", "to", "who", "receiver"], dictGet op k = some x := by
  have hbody : parse_operation op = Except.ok
      ⟨[], pySetUpdate []
        ((keep_in_dict op ["agent", "from", "to", "who", "receiver"]).map Prod.snd)⟩ := by
    unfold parse_operation pyGetItem
    rw [htype]
    show parse_operation_body op (pstr t) = _
    fin_cases ht <;> rfl
  have hmem : ∀ x : PyVal,
      x ∈ pySetUpdate []
        ((keep_in_dict op ["agent", "from", "to", "who", "receiver"]).map Prod.snd) ↔
      ∃ k ∈ ["agent", "from", "to", "who", "receiver"], dictGet op k = some x := by
    intro x
    rw [mem_pySetUpdate, mem_keep_values op _ x hnodup]
    simp
  refine ⟨_, hbody, rfl, ?_, ?_, hmem⟩
  · exact (hmem A).mpr ⟨"from", by simp, hfrom⟩
  · exact (hmem B).mpr ⟨"to", by simp, hto⟩

/-- Claim C7 witness: a `transfer` from `alice` to `bob` with a memo yields
light set exactly the two account names and an empty full set. -/
theorem parse_operation_transfer_light_witness :
    ∃ res : OpResult,
      parse_operation [("type", pstr "transfer"), ("from", pstr "alice"),
        ("to", pstr "bob"), ("amount", pstr "1.000 STEEM"), ("memo", pstr "hi")]
        = Except.ok res ∧
      res.accounts = [] ∧ pstr "alice" ∈ res.accounts_light ∧
      pstr "bob" ∈ res.accounts_light ∧
      ∀ x : PyVal, x ∈ res.accounts_light ↔
        ∃ k ∈ ["agent", "from", "to", "who", "receiver"],
          dictGet [("type", pstr "transfer"), ("from", pstr "alice"),
            ("to", pstr "bob"), ("amount", pstr "1.000 STEEM"), ("memo", pstr "hi")] k
            = some x :=
  parse_operation_transfer_light
    [("type", pstr "transfer"), ("from", pstr "alice"), ("to", pstr "bob"),
      ("amount", pstr "1.000 STEEM"), ("memo", pstr "hi")]
    "transfer" (pstr "alice") (pstr "bob") (by decide) (by decide) rfl rfl rfl

/-- Claim C6: for a `post_processing` run with a non-empty selected batch
whose classification succeeds, there is a maximum batch `block_num` `mx`
such that: outside the 10-day recency window no refresh work is dispatched
yet the checkpoint still advances to `mx` (the whole trace is that single
checkpoint write); inside the window, `update_account` light refreshes and
`update_account_ops_quick` backfills are dispatched over the deduplicated
union of the light and full account sets of the batch (its truthy members,
as squashed by `custom_merge`), and only then does the checkpoint advance
to `mx`. -/
theorem post_processing_dispatch_policy (ops : List StoredOp)
    (start_block head_block_num batch_size : Int) (batches : List OpResult)
    (hne : pp_selected ops start_block batch_size ≠ [])
    (hparse : parse_batches (pp_selected ops start_block batch_size)
      = Except.ok batches) :
    ∃ mx : Int,
      mx ∈ (pp_selected ops start_block batch_size).map StoredOp.block_num ∧
      (∀ bn ∈ (pp_selected ops start_block batch_size).map StoredOp.block_num, bn ≤ mx) ∧
      (is_recent start_block head_block_num 10 = false →
        post_processing ops start_block head_block_num batch_size
          = ([PPEvent.setCheckpoint mx], none)) ∧
      (is_recent start_block head_block_num 10 = true →
        ∃ accounts : List PyVal, accounts.Nodup ∧
          (∀ x : PyVal, x ∈ accounts ↔ pyTruthy x = true ∧
            ∃ b ∈ batches, x ∈ b.accounts_light ∨ x ∈ b.accounts) ∧
          post_processing ops start_block head_block_num batch_size
            = (accounts.map PPEvent.dispatchUpdateAccount
               ++ accounts.map PPEvent.dispatchUpdateOpsQuick
               ++ [PPEvent.setCheckpoint mx], none)) := by
  have hmapne : (pp_selected ops start_block batch_size).map StoredOp.block_num ≠ [] := by
    simpa using hne
  obtain ⟨mx, hpm, hmem, hmax⟩ := py_max_spec _ hmapne
  have hbne : batches ≠ [] := by
    intro hb
    subst hb
    have hlen := parse_batches_length _ _ hparse
    simp only [List.length_nil] at hlen
    exact hne (List.eq_nil_of_length_eq_zero hlen.symm)
  have hEmpty : (pp_selected ops start_block batch_size).isEmpty = false :=
    List.isEmpty_eq_false.mpr hne
  have hbEmpty : batches.isEmpty = false :=
    List.isEmpty_eq_false.mpr hbne
  refine ⟨mx, hmem, hmax, ?_, ?_⟩
  · intro h10
    have hd : pp_dispatch_events head_block_num start_block batches = Except.ok [] := by
      unfold pp_dispatch_events
      rw [h10]
      rfl
    unfold post_processing
    rw [if_neg (by rw [hEmpty]; simp), hparse]
    show (match pp_dispatch_events head_block_num start_block batches with
      | Except.error e => (([] : List PPEvent), some e)
      | Except.ok devents =>
        match py_max ((pp_selected ops start_block batch_size).map StoredOp.block_num) with
        | Except.error e => (devents, some e)
        | Except.ok index => (devents ++ [PPEvent.setCheckpoint index], none))
      = ([PPEvent.setCheckpoint mx], none)
    rw [hd]
    show (match py_max ((pp_selected ops start_block batch_size).map StoredOp.block_num) with
      | Except.error e => (([] : List PPEvent), some e)
      | Except.ok index => (([] : List PPEvent) ++ [PPEvent.setCheckpoint index], none))
      = ([PPEvent.setCheckpoint mx], none)
    rw [hpm]
    rfl
  · intro h10
    have hMerge : merge_with_custom batches =
        ⟨some (custom_merge (batches.map OpResult.accounts)),
         some (custom_merge (batches.map OpResult.accounts_light))⟩ := by
      unfold merge_with_custom
      rw [hbEmpty]
      rfl
    have hd : pp_dispatch_events head_block_num start_block batches
        = Except.ok
          ((pySetList (custom_merge (batches.map OpResult.accounts_light)
              ++ custom_merge (batches.map OpResult.accounts))).map
            PPEvent.dispatchUpdateAccount
          ++ (pySetList (custom_merge (batches.map OpResult.accounts_light)
              ++ custom_merge (batches.map OpResult.accounts))).map
            PPEvent.dispatchUpdateOpsQuick) := by
      unfold pp_dispatch_events
      rw [h10, hMerge]
      rfl
    refine ⟨pySetList (custom_merge (batches.map OpResult.accounts_light)
      ++ custom_merge (batches.map OpResult.accounts)), nodup_pySetList _, ?_, ?_⟩
    · intro x
      rw [mem_pySetList, List.mem_append, mem_custom_merge, mem_custom_merge]
      constructor
      · rintro (⟨ht, l, hl, hx⟩ | ⟨ht, l, hl, hx⟩)
        · obtain ⟨b, hb, rfl⟩ := List.mem_map.mp hl
          exact ⟨ht, b, hb, Or.inl hx⟩
        · obtain ⟨b, hb, rfl⟩ := List.mem_map.mp hl
          exact ⟨ht, b, hb, Or.inr hx⟩
      · rintro ⟨ht, b, hb, hx | hx⟩
        · exact Or.inl ⟨ht, _, List.mem_map_of_mem _ hb, hx⟩
        · exact Or.inr ⟨ht, _, List.mem_map_of_mem _ hb, hx⟩
    · unfold post_processing
      rw [if_neg (by rw [hEmpty]; simp), hparse]
      show (match pp_dispatch_events head_block_num start_block batches with
        | Except.error e => (([] : List PPEvent), some e)
        | Except.ok devents =>
          match py_max ((pp_selected ops start_block batch_size).map StoredOp.block_num) with
          | Except.error e => (devents, some e)
          | Except.ok index => (devents ++ [PPEvent.setCheckpoint index], none))
        = _
      rw [hd]
      show (match py_max ((pp_selected ops start_block batch_size).map StoredOp.block_num) with
        | Except.error e =>
          ((pySetList (custom_merge (batches.map OpResult.accounts_light)
              ++ custom_merge (batches.map OpResult.accounts))).map
            PPEvent.dispatchUpdateAccount
          ++ (pySetList (custom_merge (batches.map OpResult.accounts_light)
              ++ custom_merge (batches.map OpResult.accounts))).map
            PPEvent.dispatchUpdateOpsQuick, some e)
        | Except.ok index =>
          ((pySetList (custom_merge (batches.map OpResult.accounts_light)
              ++ custom_merge (batches.map OpResult.accounts))).map
            PPEvent.dispatchUpdateAccount
          ++ (pySetList (custom_merge (batches.map OpResult.accounts_light)
              ++ custom_merge (batches.map OpResult.accounts))).map
            PPEvent.dispatchUpdateOpsQuick ++ [PPEvent.setCheckpoint index], none))
        = _
      rw [hpm]

/-- Claim C6 witness: one stored `vote` in block 96, checkpoint 95, head
block 300000 (outside the 10-day window): the run writes checkpoint 96 and
dispatches nothing. -/
theorem post_processing_dispatch_policy_witness :
    post_processing [⟨96, [("type", pstr "vote"), ("voter", pstr "v")]⟩] 95 300000 100
      = ([PPEvent.setCheckpoint 96], none) := by
  obtain ⟨mx, hmem, hmax, hstale, hrec⟩ :=
    post_processing_dispatch_policy
      [⟨96, [("type", pstr "vote"), ("voter", pstr "v")]⟩]
      95 300000 100 [⟨[], [pstr "v"]⟩] (by decide) rfl
  have hsel : (pp_selected [⟨96, [("type", pstr "vote"), ("voter", pstr "v")]⟩]
      95 100).map StoredOp.block_num = [96] := rfl
  rw [hsel] at hmem
  have hmx : mx = 96 := List.mem_singleton.mp hmem
  have hout := hstale (by decide)
  rw [hmx] at hout
  exact hout
